import Mathlib

/-! Overview:
Shallow embedding of the pdf_to_text OCR layout-reconstruction pipeline.

The embedded code lives in:
* src/services/ocr/ocr_adapters/easyocr_adapter.py (detection normalisation),
* src/services/ocr/ocr_text_formatter_service.py (binning, line/page
  composition, document assembly),
* src/controller/pdf_to_text_controller.py (document-level control flow).

Modelling conventions:
* Python floats are idealised as rationals (ℚ); all the arithmetic under
  study (subtraction, division by constants, comparisons, flooring of
  non-negative quotients) is exact, so the idealisation only removes
  float rounding noise.
* Python lists/DataFrame rows are Lean lists; a pandas DataFrame column is
  the list of that field's values in row order.
* Python exceptions are `Except String`; an uncaught IndexError or
  KeyError becomes an `Except.error` with a matching message.
* pandas `sort_values` (lexsort) and Python `sorted` are stable sorts;
  they are embedded with the stable `List.insertionSort`.
* The external OCR engine call `read_text_from_image(image)` is outside
  the repository; a page image is therefore modelled directly by the list
  of raw detection records the engine returns for it.
-/

namespace PdfToText

/-- One corner point of an OCR bounding region (pixel coordinates). -/
structure Point where
  x : ℚ
  y : ℚ
deriving DecidableEq

/-- One raw EasyOCR output record `[bounding_box, text, confidence]`:
a list of corner points plus the recognised text (the confidence value is
accepted but never read by the embedded code, so it is omitted). -/
structure RawDetection where
  bounding_box : List Point
  text : String
deriving DecidableEq

/-- The normalised metadata record built by
`EasyOCRAdapter.create_ocr_metadata`:
`{'text': str, 'x': float, 'y': float, 'text_length': int}`. -/
structure Detection where
  text : String
  x : ℚ
  y : ℚ
  text_length : ℕ
deriving DecidableEq

/-- Embeds `EasyOCRAdapter.get_x_axis`: `x = bounding_box[0][0]`.
Python raises an IndexError when the list is empty. -/
def get_x_axis (bounding_box : List Point) : Except String ℚ :=
  match bounding_box with
  | p0 :: _ => .ok p0.x
  | [] => .error "list index out of range"

/-- Embeds `EasyOCRAdapter.get_y_axis`:
`y_start = bounding_box[0][1]`, `y_end = bounding_box[1][1]`,
`y = ((y_end - y_start) / 2) + y_end`.
Python raises an IndexError when the list has fewer than two entries;
corner points are never compared for distinctness. -/
def get_y_axis (bounding_box : List Point) : Except String ℚ :=
  match bounding_box with
  | p0 :: p1 :: _ => .ok ((p1.y - p0.y) / 2 + p1.y)
  | _ => .error "list index out of range"

/-- The body of the `for row in ocr_output` loop of
`EasyOCRAdapter.create_ocr_metadata`, for one raw record. -/
def detection_of_raw (row : RawDetection) : Except String Detection :=
  match get_x_axis row.bounding_box with
  | .error e => .error e
  | .ok x =>
    match get_y_axis row.bounding_box with
    | .error e => .error e
    | .ok y => .ok { text := row.text, x := x, y := y, text_length := row.text.length }

/-- Embeds `EasyOCRAdapter.create_ocr_metadata`: builds one metadata record
per raw record, in order, propagating the first exception raised. -/
def create_ocr_metadata : List RawDetection → Except String (List Detection)
  | [] => .ok []
  | row :: rest =>
    match detection_of_raw row with
    | .error e => .error e
    | .ok d =>
      match create_ocr_metadata rest with
      | .error e => .error e
      | .ok ds => .ok (d :: ds)

/-- Maximum of a column of values (`max(df['y'])`); the `0` default for an
empty column is never reached, because the service short-circuits empty
pages before computing any maximum. -/
def list_max (l : List ℚ) : ℚ :=
  match l with
  | [] => 0
  | a :: rest => rest.foldl max a

/-- Minimum of a column of values (used by `pd.cut` for the bin range). -/
def list_min (l : List ℚ) : ℚ :=
  match l with
  | [] => 0
  | a :: rest => rest.foldl min a

/-- Embeds `OCRTextFormatterService._create_pandas_dataset`: an empty
dataset is returned as is; otherwise every `y` is replaced by
`max_y - y` (flip into reading space). The `astype` call is a no-op on
the embedded data. -/
def create_pandas_dataset (dataset : List Detection) : List Detection :=
  if dataset = [] then []
  else
    let max_y := list_max (dataset.map Detection.y)
    dataset.map (fun d => { d with y := max_y - d.y })

/-- The end-point pre-adjustment `pd.cut` applies to a degenerate range
(`mn == mx`): both ends are widened by 0.1 % of their magnitude, or by
0.001 when the value is 0. A non-degenerate range is kept. -/
def cut_bounds (mn mx : ℚ) : ℚ × ℚ :=
  if mn = mx then
    (mn - (if mn = 0 then 1 / 1000 else |mn| / 1000),
     mx + (if mx = 0 then 1 / 1000 else |mx| / 1000))
  else (mn, mx)

/-- The `j`-th edge of the `N + 1` equally spaced bin edges
`np.linspace(lo, hi, N + 1)` used by `pd.cut(..., bins=N)`. -/
def cut_edge (lo hi : ℚ) (N : ℕ) (j : ℕ) : ℚ := lo + j * ((hi - lo) / N)

/-- The 0-based index of the right-closed interval `(edge i, edge (i+1)]`
of `pd.cut` that contains `v`, counted as the number of right edges
strictly below `v`. `pd.cut` additionally lowers the leftmost edge by
0.1 % of the range so that the minimum value falls into bin 0 instead of
becoming NaN; for in-range values this count already assigns bin 0 to the
minimum, so that adjustment needs no separate model. -/
def raw_bin (lo hi : ℚ) (N : ℕ) (v : ℚ) : ℕ :=
  (List.range N).countP (fun i => decide (cut_edge lo hi N (i + 1) < v))

/-- The interval (identified by its index) that
`pd.cut(dataset[axis], bins=num_classes)` assigns to the value `v` of an
axis whose observed column is `vals`. -/
def axis_bin (vals : List ℚ) (N : ℕ) (v : ℚ) : ℕ :=
  raw_bin (cut_bounds (list_min vals) (list_max vals)).1
    (cut_bounds (list_min vals) (list_max vals)).2 N v

/-- Embeds the `classes` frame of
`OCRTextFormatterService._create_axis_classes`: the distinct intervals
that actually occur in the column, in ascending interval order
(`sort_values().drop_duplicates()`); intervals are represented by their
`raw_bin` index, which orders exactly like their lower bounds because the
edges ascend. -/
def used_bins (vals : List ℚ) (N : ℕ) : List ℕ :=
  List.insertionSort (· ≤ ·) (vals.map (axis_bin vals N)).dedup

/-- Embeds `_create_axis_classes`' enumeration
(`classes[target] = range(0, len(classes))`) combined with
`_calculate_axis`' left-merge on the interval column: each value receives
the position of its interval in the sorted distinct interval list. -/
def class_index (vals : List ℚ) (N : ℕ) (v : ℚ) : ℕ :=
  (used_bins vals N).indexOf (axis_bin vals N v)

/-- A dataset row after `_map_text_positions`: the detection together
with its `row` and `column` grid indices. -/
structure Positioned where
  det : Detection
  row : ℕ
  column : ℕ
deriving DecidableEq

/-- Embeds `OCRTextFormatterService._map_text_positions`: `row` is the
axis class of the (already flipped) `y` column with `num_rows` bins,
`column` is the axis class of the `x` column with `num_columns` bins.
The two `_calculate_axis` left-merges (on interval columns whose distinct
values are enumerated uniquely) keep every row once, in order. -/
def map_text_positions (dataset : List Detection) (num_rows num_columns : ℕ) :
    List Positioned :=
  dataset.map (fun d =>
    { det := d
      row := class_index (dataset.map Detection.y) num_rows d.y
      column := class_index (dataset.map Detection.x) num_columns d.x })

/-- Embeds `str.join` with an empty separator: the final
`''.join(line_text)` of `_format_line`. -/
def join_all : List String → String
  | [] => ""
  | a :: rest => a ++ join_all rest

/-- The `line_text` fragments produced by the loop of
`OCRTextFormatterService._format_line`, from a given cursor `pivot`: for
each row, if `x ≥ pivot` then `spaces_len = int((x - pivot) / (2 *
(space_redutor + 1)))` (the quotient is non-negative, so Python's
truncating `int` is the floor), else `spaces_len = 1`; emit that many
spaces, then the text, and advance `pivot = x + text_length`. -/
def format_line_frags (space_redutor : ℕ) : ℚ → List Positioned → List String
  | _, [] => []
  | pivot, p :: rest =>
    let start_text := p.det.x
    let spaces_len : ℕ :=
      if pivot ≤ start_text then
        (Int.floor ((start_text - pivot) / (2 * ((space_redutor : ℚ) + 1)))).toNat
      else 1
    String.mk (List.replicate spaces_len ' ') :: p.det.text ::
      format_line_frags space_redutor (start_text + (p.det.text_length : ℚ)) rest

/-- Embeds `OCRTextFormatterService._format_line` (pivot starts at 0; the
`font_size_regulator` parameter is accepted and never read). -/
def format_line (dataset : List Positioned)
    (space_redutor font_size_regulator : ℕ) : String :=
  join_all (format_line_frags space_redutor 0 dataset)

/-- The members of one `groupby('row')` group of `_format_output`, in
iteration order. The frame was sorted by `['row', 'column']` with
`ascending=[False, True]` (a stable lexsort), so within one row group the
rows appear stably sorted by `column`; filtering the original dataset to
the row and stably sorting by `column` yields exactly that order. -/
def row_group (dataset : List Positioned) (r : ℕ) : List Positioned :=
  List.insertionSort (fun a b => a.column ≤ b.column)
    (dataset.filter (fun p => p.row == r))

/-- The distinct `row` keys of the dataset in ascending order: the order
in which `groupby('row')` (which sorts group keys ascending) yields its
groups. -/
def row_keys (dataset : List Positioned) : List ℕ :=
  List.insertionSort (· ≤ ·) (dataset.map Positioned.row).dedup

/-- Embeds `str.join` with a real separator (`'\n'.join(...)`). -/
def join_with (sep : String) : List String → String
  | [] => ""
  | [a] => a
  | a :: b :: rest => a ++ sep ++ join_with sep (b :: rest)

/-- Embeds `OCRTextFormatterService._format_output`: one formatted line
per `groupby('row')` group (ascending row keys), then
`reconstructed_doc.reverse()` (descending row keys), joined with
newlines. -/
def format_output (dataset : List Positioned)
    (space_redutor font_size_regulator : ℕ) : String :=
  join_with "\n"
    (((row_keys dataset).map
      (fun r => format_line (row_group dataset r) space_redutor font_size_regulator)).reverse)

/-- Embeds `OCRTextFormatterService._extract_formated_text_from_image`:
falsy (empty) OCR output short-circuits to `''` before any metadata or
binning work; otherwise the full pipeline runs and any exception is
re-raised wrapped. Only the metadata step can raise in the embedding. -/
def extract_formated_text_from_image (ocr_output : List RawDetection)
    (num_rows num_columns space_redutor font_size_regulator : ℕ) :
    Except String String :=
  if ocr_output = [] then .ok ""
  else
    match create_ocr_metadata ocr_output with
    | .error e => .error ("Fail on format ocr output: \n " ++ e)
    | .ok dataset =>
      .ok (format_output
        (map_text_positions (create_pandas_dataset dataset) num_rows num_columns)
        space_redutor font_size_regulator)

/-- Embeds `str.lower()` as a character-wise lowering; the embedded
strings are ASCII, where the two agree. -/
def to_lower (s : String) : String := String.mk (s.data.map Char.toLower)

/-- The per-page image metadata stored under one key of the `images`
dict: `{'id': int, 'image': bytes}`. The page image bytes are opaque to
the embedded code and only ever passed to the external OCR engine, so an
image is modelled by the raw detection list the engine reads from it. -/
structure PageMeta where
  id : ℕ
  image : List RawDetection
deriving DecidableEq

/-- Embeds `OCRTextFormatterService._process_document_text` for one page:
run the OCR read plus `_extract_formated_text_from_image` and pair the
result with the page id (`{'page_id': ..., 'formated_text': ...}`). -/
def process_document_text (page_id : ℕ) (image : List RawDetection)
    (num_rows num_columns space_redutor font_size_regulator : ℕ) :
    Except String (ℕ × String) :=
  match extract_formated_text_from_image image
      num_rows num_columns space_redutor font_size_regulator with
  | .error e => .error e
  | .ok t => .ok (page_id, t)

/-- Collecting the page futures of `handle_request`: one
`_process_document_text` task per entry of the `images` dict; the first
page exception aborts collection (`future.result()` re-raises). The
thread pool completes tasks in a nondeterministic order, but every
completion order is a permutation of this submission-order list, and the
assembly below re-sorts by page id (permutation invariance is proved for
claim C4). -/
def process_pages (images : List (String × PageMeta))
    (num_rows num_columns space_redutor font_size_regulator : ℕ) :
    Except String (List (ℕ × String)) :=
  match images with
  | [] => .ok []
  | im :: rest =>
    match process_document_text im.2.id im.2.image
        num_rows num_columns space_redutor font_size_regulator with
    | .error e => .error e
    | .ok r =>
      match process_pages rest num_rows num_columns space_redutor font_size_regulator with
      | .error e => .error e
      | .ok rs => .ok (r :: rs)

/-- Embeds `sorted(document_results, key=lambda x: x['page_id'])`
(Python's `sorted` is stable). -/
def sort_results (document_results : List (ℕ × String)) : List (ℕ × String) :=
  List.insertionSort (fun a b => a.1 ≤ b.1) document_results

/-- The `content` list built by `handle_request`: for each sorted result,
its page text followed by the literal marker `End of page {id}`. -/
def assemble_content (document_results : List (ℕ × String)) : List String :=
  (sort_results document_results).flatMap
    (fun data => [data.2, "End of page " ++ toString data.1])

/-- The final document string of `handle_request`:
`'\n'.join(content).lower()`. -/
def assemble_document (document_results : List (ℕ × String)) : String :=
  to_lower (join_with "\n" (assemble_content document_results))

/-- The values a `ProcessObject` entry can hold: strings, the optional
page subset, the images dict (as an ordered key/metadata list), or raw
document bytes (opaque, kept abstract as a byte list). -/
inductive PValue where
  | str : String → PValue
  | pages : Option (List ℕ) → PValue
  | imgs : List (String × PageMeta) → PValue
  | bits : List ℕ → PValue
deriving DecidableEq

/-- The ProcessObject class (a `dict` subclass) as a partial map from string keys
to values. -/
def ProcessObject : Type := String → Option PValue

/-- Embeds `OCRTextFormatterService.handle_request`: read the `images`
dict (KeyError if absent), process every page, then set `text` to the
assembled document and delete `images` and `document_bits` (the latter
`del` raises KeyError when the key is absent). A call that raises leaves
only an error behind; the claims quantify over successful calls. -/
def handle_request (process_object : ProcessObject)
    (num_rows num_columns space_redutor font_size_regulator : ℕ) :
    Except String ProcessObject :=
  match process_object "images" with
  | some (.imgs images) =>
    match process_pages images num_rows num_columns space_redutor font_size_regulator with
    | .error e => .error e
    | .ok document_results =>
      match process_object "document_bits" with
      | some _ =>
        .ok (fun k =>
          if k = "text" then some (.str (assemble_document document_results))
          else if k = "images" then none
          else if k = "document_bits" then none
          else process_object k)
      | none => .error "KeyError: document_bits"
  | _ => .error "KeyError: images"

/-- The process object as `PDFToTextController.run` hands it to the OCR
formatter: the controller fills `file_name`, `document_bits` and
`pages_to_include`, then the (external, thin) `PdfToImageService` adds
the `images` dict of rasterized pages. -/
def controller_process_object (file_name : String) (images : List (String × PageMeta)) :
    ProcessObject := fun k =>
  if k = "file_name" then some (.str file_name)
  else if k = "document_bits" then some (.bits [])
  else if k = "pages_to_include" then some (.pages none)
  else if k = "images" then some (.imgs images)
  else none

/-- Embeds `PDFToTextController.run` from the point where the process
object is filled: `OCRTextFormatterService.handle_request` runs, then the
controller returns `process_object.get('text')` when it is truthy and
raises `RuntimeError('Document ..., do not contain text!')` when it is
falsy (the empty string); every exception is re-wrapped as
`Exception('Fail in OCR process: ...')`. -/
def controller_run (file_name : String) (images : List (String × PageMeta))
    (num_rows num_columns space_redutor font_size_regulator : ℕ) :
    Except String String :=
  match handle_request (controller_process_object file_name images)
      num_rows num_columns space_redutor font_size_regulator with
  | .error e => .error ("Fail in OCR process: " ++ e)
  | .ok po =>
    match po "text" with
    | some (.str t) =>
      if t = "" then
        .error ("Fail in OCR process: Document " ++ file_name ++ ", do not contain text!")
      else .ok t
    | _ => .error ("Fail in OCR process: Document " ++ file_name ++ ", do not contain text!")

/-! Section: Generic helper lemmas -/

/-- In a strictly ascending list, positions respect the order. -/
lemma indexOf_le_indexOf_of_pairwise_lt {l : List ℕ} (hs : l.Pairwise (· < ·)) {a b : ℕ}
    (ha : a ∈ l) (hb : b ∈ l) (hab : a ≤ b) : l.indexOf a ≤ l.indexOf b := by
  induction l with
  | nil => cases ha
  | cons c t ih =>
    rcases List.pairwise_cons.mp hs with ⟨hc, ht⟩
    by_cases hac : a = c
    · subst hac
      simp [List.indexOf_cons_self]
    · have hat : a ∈ t := (List.mem_cons.mp ha).resolve_left hac
      have hbc : b ≠ c := by
        intro hbc
        subst hbc
        exact absurd hab (not_le.mpr (hc a hat))
      have hbt : b ∈ t := (List.mem_cons.mp hb).resolve_left hbc
      rw [List.indexOf_cons_ne _ (Ne.symm hac), List.indexOf_cons_ne _ (Ne.symm hbc)]
      exact Nat.succ_le_succ (ih ht hat hbt)

/-- In a strictly descending list, positions reverse the order. -/
lemma indexOf_le_indexOf_of_pairwise_gt {l : List ℕ} (hs : l.Pairwise (· > ·)) {a b : ℕ}
    (ha : a ∈ l) (hb : b ∈ l) (hba : b ≤ a) : l.indexOf a ≤ l.indexOf b := by
  induction l with
  | nil => cases ha
  | cons c t ih =>
    rcases List.pairwise_cons.mp hs with ⟨hc, ht⟩
    by_cases hac : a = c
    · subst hac
      simp [List.indexOf_cons_self]
    · have hat : a ∈ t := (List.mem_cons.mp ha).resolve_left hac
      have hbc : b ≠ c := by
        intro hbc
        subst hbc
        exact absurd hba (not_le.mpr (hc a hat))
      have hbt : b ∈ t := (List.mem_cons.mp hb).resolve_left hbc
      rw [List.indexOf_cons_ne _ (Ne.symm hac), List.indexOf_cons_ne _ (Ne.symm hbc)]
      exact Nat.succ_le_succ (ih ht hat hbt)

/-- Sorting the deduplicated list gives a list without duplicates. -/
lemma sorted_dedup_nodup (l : List ℕ) : (List.insertionSort (· ≤ ·) l.dedup).Nodup :=
  ((List.perm_insertionSort _ _).nodup_iff).mpr (List.nodup_dedup _)

/-- Sorting the deduplicated list gives a strictly ascending list. -/
lemma sorted_dedup_pairwise_lt (l : List ℕ) :
    (List.insertionSort (· ≤ ·) l.dedup).Pairwise (· < ·) := by
  have h1 : (List.insertionSort (· ≤ ·) l.dedup).Pairwise (· ≤ ·) :=
    List.sorted_insertionSort _ _
  exact (h1.and (sorted_dedup_nodup l)).imp (fun h => lt_of_le_of_ne h.1 h.2)

/-- Membership in the sorted deduplicated list. -/
lemma mem_sorted_dedup {l : List ℕ} {a : ℕ} :
    a ∈ List.insertionSort (· ≤ ·) l.dedup ↔ a ∈ l := by
  rw [(List.perm_insertionSort _ _).mem_iff, List.mem_dedup]

/-! Section: Claim C5 — Detection Normalizer y rule -/

/-- C5: for every raw detection whose bounding region starts with corner
points `p0` (top edge) and `p1` (bottom edge, in the source's reading of
the region layout, its `y_start`/`y_end`), the Detection produced has
`y = bottom_edge_y + (bottom_edge_y - top_edge_y) / 2`,
`x` = the first corner's x-coordinate, and `length` = the character count
of the recognized text. -/
theorem C5_detection_normalizer_y :
    ∀ (rec : RawDetection) (p0 p1 : Point) (rest : List Point),
      rec.bounding_box = p0 :: p1 :: rest →
      detection_of_raw rec =
        .ok { text := rec.text, x := p0.x, y := p1.y + (p1.y - p0.y) / 2,
              text_length := rec.text.length } := by
  intro rec p0 p1 rest h
  simp only [detection_of_raw, get_x_axis, get_y_axis, h, Except.ok.injEq, Detection.mk.injEq,
    true_and, and_true]
  ring

/-- Witness for C5 at a concrete bounding region. -/
theorem C5_detection_normalizer_y_witness :
    ({ bounding_box := [{ x := 0, y := 10 }, { x := 5, y := 20 }], text := "Hi" } :
        RawDetection).bounding_box =
      { x := 0, y := 10 } :: { x := 5, y := 20 } :: ([] : List Point) ∧
    detection_of_raw
        { bounding_box := [{ x := 0, y := 10 }, { x := 5, y := 20 }], text := "Hi" } =
      .ok { text := "Hi", x := 0, y := (20 : ℚ) + ((20 : ℚ) - 10) / 2, text_length := 2 } :=
  ⟨rfl, C5_detection_normalizer_y _ { x := 0, y := 10 } { x := 5, y := 20 } [] rfl⟩

/-! Section: Claim C9 — malformed detections -/

/-- C9 counterexample: a bounding region of four identical corner points
has fewer than two distinct corners, yet the Detection Normalizer
succeeds and produces a Detection, contradicting the claimed
`MalformedDetectionError` failure. -/
theorem C9_counterexample :
    (({ bounding_box := [⟨0, 0⟩, ⟨0, 0⟩, ⟨0, 0⟩, ⟨0, 0⟩], text := "a" } :
        RawDetection).bounding_box.dedup.length < 2) ∧
    detection_of_raw { bounding_box := [⟨0, 0⟩, ⟨0, 0⟩, ⟨0, 0⟩, ⟨0, 0⟩], text := "a" } =
      .ok { text := "a", x := 0, y := 0, text_length := 1 } :=
  ⟨by decide, by with_unfolding_all rfl⟩

/-- C9 amended: the normalizer produces a Detection exactly when the
bounding region has at least two corner points, counted with
multiplicity; distinctness of the corners is never checked, and a region
with fewer than two points fails with an uncaught index error (there is
no `MalformedDetectionError`). -/
theorem C9_amended_corner_count :
    ∀ rec : RawDetection,
      (∃ d, detection_of_raw rec = .ok d) ↔ 2 ≤ rec.bounding_box.length := by
  intro rec
  rcases hbb : rec.bounding_box with _ | ⟨p0, _ | ⟨p1, rest⟩⟩
  · simp [detection_of_raw, get_x_axis, hbb]
  · simp [detection_of_raw, get_x_axis, get_y_axis, hbb]
  · simp [detection_of_raw, get_x_axis, get_y_axis, hbb]

/-- Witness for C9's amended claim at a two-point region. -/
theorem C9_amended_corner_count_witness :
    (∃ d, detection_of_raw { bounding_box := [⟨0, 10⟩, ⟨5, 20⟩], text := "Hi" } = .ok d) ↔
      2 ≤ ({ bounding_box := [⟨0, 10⟩, ⟨5, 20⟩], text := "Hi" } :
        RawDetection).bounding_box.length :=
  C9_amended_corner_count _

/-! Section: Claim C1 — Line Composer -/

/-- Spec-side Line Composer (specification §4.4), written from the spec's
words for the refinement claim C1: iterate over the row's detections with
a cursor `pivot` starting at 0; when `x ≥ pivot` the gap is
`floor((x - pivot) / (2 * (spaceReductionFactor + 1)))` spaces, otherwise
exactly one space; emit the spaces, then the detection's text, and
advance `pivot = x + length`. No `glyphWidthFactor` appears in the
formula. -/
def line_composer_spec (spaceReductionFactor : ℕ) : ℚ → List Positioned → String
  | _, [] => ""
  | pivot, p :: rest =>
    (if p.det.x ≥ pivot then
      String.mk (List.replicate
        ((Int.floor ((p.det.x - pivot) / (2 * ((spaceReductionFactor : ℚ) + 1)))).toNat) ' ')
    else String.mk (List.replicate 1 ' ')) ++
      p.det.text ++
      line_composer_spec spaceReductionFactor (p.det.x + (p.det.text_length : ℚ)) rest

lemma join_all_frags_eq (s : ℕ) (l : List Positioned) :
    ∀ pivot : ℚ, join_all (format_line_frags s pivot l) = line_composer_spec s pivot l := by
  induction l with
  | nil => intro pivot; rfl
  | cons p rest ih =>
    intro pivot
    simp only [format_line_frags, line_composer_spec, join_all, ih, ge_iff_le]
    split_ifs with h
    · rw [String.append_assoc]
    · rw [String.append_assoc]

/-- The two-detection row of the concrete scenario of claim C1. -/
def hello_world_row : List Positioned :=
  [ { det := { text := "Hello", x := 0, y := 0, text_length := 5 }, row := 0, column := 0 },
    { det := { text := "World", x := 60, y := 0, text_length := 5 }, row := 0, column := 1 } ]

/-- C1: for every row of detections and integer
`spaceReductionFactor ≥ 1`, `_format_line` computes exactly the spec's
Line Composer (pivot from 0, `floor((x - pivot) / (2 *
(spaceReductionFactor + 1)))` spaces when `x ≥ pivot`, else one space,
pivot advanced to `x + length`, the `glyphWidthFactor` parameter never
applied); and on the row `Hello`(x=0,len=5), `World`(x=60,len=5) with
factor 8 the composed line is `"Hello   World"`. -/
theorem C1_line_composer :
    (∀ (dets : List Positioned) (spaceReductionFactor glyphWidthFactor : ℕ),
      1 ≤ spaceReductionFactor →
      format_line dets spaceReductionFactor glyphWidthFactor =
        line_composer_spec spaceReductionFactor 0 dets) ∧
    format_line hello_world_row 8 6 = "Hello   World" := by
  constructor
  · intro dets s g _
    exact join_all_frags_eq s dets 0
  · with_unfolding_all decide

/-- Witness for C1 at the concrete scenario row. -/
theorem C1_line_composer_witness :
    1 ≤ 8 ∧ format_line hello_world_row 8 6 = line_composer_spec 8 0 hello_world_row :=
  ⟨by decide, C1_line_composer.1 hello_world_row 8 6 (by decide)⟩

/-! Section: Claim C7 — empty pages -/

/-- C7: a page with an empty OCR detection list contributes the empty
string, produced by the short-circuit guard of
`_extract_formated_text_from_image` before any metadata or binning code
runs; and every collected page result, whatever its text, still gets its
literal `End of page {id}` marker in the assembled content list. -/
theorem C7_empty_page :
    (∀ num_rows num_columns space_redutor font_size_regulator : ℕ,
      extract_formated_text_from_image [] num_rows num_columns space_redutor
        font_size_regulator = .ok "") ∧
    (∀ (document_results : List (ℕ × String)) (res : ℕ × String),
      res ∈ document_results →
      ("End of page " ++ toString res.1) ∈ assemble_content document_results) := by
  constructor
  · intro nr nc sr fsr
    rfl
  · intro document_results res hres
    have h2 : res ∈ sort_results document_results :=
      ((List.perm_insertionSort _ _).mem_iff).mpr hres
    unfold assemble_content
    exact List.mem_flatMap.mpr ⟨res, h2, by simp⟩

/-- Witness for C7: an empty page's result still yields its marker. -/
theorem C7_empty_page_witness :
    ((1, "") ∈ [((1 : ℕ), "")]) ∧
    ("End of page " ++ toString (1, "").1) ∈ assemble_content [((1 : ℕ), "")] :=
  ⟨by decide, C7_empty_page.2 [((1 : ℕ), "")] (1, "") (by decide)⟩

/-! Section: Claim C10 — handle_request frame effect -/

/-- C10: every successful `handle_request` call deletes `images` and
`document_bits` from the process object, sets `text` to the assembled
document built from the page results, and leaves every other key
unchanged. -/
theorem C10_handle_request_frame :
    ∀ (po : ProcessObject) (nr nc sr fsr : ℕ) (po2 : ProcessObject),
      handle_request po nr nc sr fsr = .ok po2 →
      po2 "images" = none ∧ po2 "document_bits" = none ∧
      (∃ images document_results,
        po "images" = some (.imgs images) ∧
        process_pages images nr nc sr fsr = .ok document_results ∧
        po2 "text" = some (.str (assemble_document document_results))) ∧
      (∀ k, k ≠ "images" → k ≠ "document_bits" → k ≠ "text" → po2 k = po k) := by
  intro po nr nc sr fsr po2 h
  unfold handle_request at h
  split at h
  case _ images heq =>
    split at h
    · exact absurd h (by simp)
    case _ document_results heq2 =>
      split at h
      case _ v heq3 =>
        rw [Except.ok.injEq] at h
        subst h
        refine ⟨rfl, rfl, ⟨images, document_results, heq, heq2, rfl⟩, ?_⟩
        intro k h1 h2 h3
        simp only [if_neg h3, if_neg h1, if_neg h2]
      case _ heq3 => exact absurd h (by simp)
  case _ heq => exact absurd h (by simp)

/-- A concrete filled process object for the C10 witness. -/
def c10_process_object : ProcessObject :=
  controller_process_object "doc.pdf" [("p_1", { id := 1, image := [] })]

/-- The process object c10_process_object becomes after a successful
`handle_request`. -/
def c10_process_object_after : ProcessObject := fun k =>
  if k = "text" then some (.str (assemble_document [(1, "")]))
  else if k = "images" then none
  else if k = "document_bits" then none
  else c10_process_object k

/-- Witness for C10 at a concrete process object. -/
theorem C10_handle_request_frame_witness :
    handle_request c10_process_object 35 20 8 6 = .ok c10_process_object_after ∧
    (c10_process_object_after "images" = none ∧
     c10_process_object_after "document_bits" = none ∧
     (∃ images document_results,
       c10_process_object "images" = some (.imgs images) ∧
       process_pages images 35 20 8 6 = .ok document_results ∧
       c10_process_object_after "text" = some (.str (assemble_document document_results))) ∧
     (∀ k, k ≠ "images" → k ≠ "document_bits" → k ≠ "text" →
       c10_process_object_after k = c10_process_object k)) :=
  ⟨by with_unfolding_all rfl,
   C10_handle_request_frame c10_process_object 35 20 8 6 c10_process_object_after
     (by with_unfolding_all rfl)⟩

/-! Section: Claim C8 — empty documents -/

/-- Pages whose OCR output is empty all short-circuit to the empty page
text, so collecting them succeeds with empty texts. -/
lemma process_pages_of_empty_images :
    ∀ (images : List (String × PageMeta)) (nr nc sr fsr : ℕ),
      (∀ im ∈ images, im.2.image = []) →
      process_pages images nr nc sr fsr = .ok (images.map (fun im => (im.2.id, ""))) := by
  intro images nr nc sr fsr
  induction images with
  | nil => intro h; rfl
  | cons im rest ih =>
    intro h
    have h1 : im.2.image = [] := h im (List.mem_cons_self _ _)
    have h2 := ih (fun x hx => h x (List.mem_cons_of_mem _ hx))
    have hext : extract_formated_text_from_image ([] : List RawDetection) nr nc sr fsr =
        .ok "" := rfl
    simp only [process_pages, process_document_text, h1, hext, h2, List.map_cons]

/-- Character-wise lowering preserves the length. -/
lemma length_to_lower (s : String) : (to_lower s).length = s.length := by
  show (s.data.map Char.toLower).length = s.data.length
  exact List.length_map _ _

/-- The assembled document of at least one page result is never the
empty string: the page-boundary marker alone contributes characters. -/
lemma assemble_document_ne_empty :
    ∀ (document_results : List (ℕ × String)), document_results ≠ [] →
      assemble_document document_results ≠ "" := by
  intro rs hne hcontra
  obtain ⟨a, t, hsr⟩ : ∃ a t, sort_results rs = a :: t := by
    rcases h2 : sort_results rs with _ | ⟨a, t⟩
    · exfalso
      have hlen := (List.perm_insertionSort (fun a b : ℕ × String => a.1 ≤ b.1) rs).length_eq
      unfold sort_results at h2
      rw [h2] at hlen
      exact hne (List.length_eq_zero.mp hlen.symm)
    · exact ⟨a, t, rfl⟩
  have hc : assemble_content rs =
      a.2 :: ("End of page " ++ toString a.1) ::
        t.flatMap (fun data => [data.2, "End of page " ++ toString data.1]) := by
    unfold assemble_content
    rw [hsr]
    rfl
  have hlen1 : 1 ≤ (join_with "\n" (assemble_content rs)).length := by
    rw [hc]
    show 1 ≤ (a.2 ++ "\n" ++
      join_with "\n" (("End of page " ++ toString a.1) ::
        t.flatMap (fun data => [data.2, "End of page " ++ toString data.1]))).length
    rw [String.length_append, String.length_append]
    have hn : ("\n" : String).length = 1 := rfl
    omega
  have hlen2 : (assemble_document rs).length =
      (join_with "\n" (assemble_content rs)).length := length_to_lower _
  rw [hcontra] at hlen2
  have : ("" : String).length = 0 := rfl
  omega

/-- C8 counterexample: a one-page document with zero detections (so the
assembled body is empty) does NOT fail; the controller returns the
marker-only text `"\nend of page 1"`. -/
theorem C8_counterexample :
    (([("p1", { id := 1, image := [] })] : List (String × PageMeta)).flatMap
        (fun im => im.2.image) = []) ∧
    controller_run "doc" [("p1", { id := 1, image := [] })] 35 20 8 6 =
      .ok "\nend of page 1" :=
  ⟨rfl, by with_unfolding_all rfl⟩

/-- C8 amended: for a document with at least one page whose pages all
process successfully with zero detections, the document-level call does
not fail: the `End of page {id}` markers make the assembled text a
non-empty string, which the controller returns. (The code's only
emptiness failure — a `RuntimeError`, there is no `EmptyDocumentError`
class — fires when the full text, markers included, is empty, which
requires a document with no pages at all.) -/
theorem C8_amended_markers_make_text_nonempty :
    ∀ (file_name : String) (images : List (String × PageMeta)) (nr nc sr fsr : ℕ),
      images ≠ [] → (∀ im ∈ images, im.2.image = []) →
      ∃ t, controller_run file_name images nr nc sr fsr = .ok t ∧ t ≠ "" := by
  intro fn images nr nc sr fsr hne hempty
  have hpp := process_pages_of_empty_images images nr nc sr fsr hempty
  have hrsne : images.map (fun im => (im.2.id, "")) ≠ [] := by
    intro hc
    exact hne (List.map_eq_nil_iff.mp hc)
  have hnem := assemble_document_ne_empty _ hrsne
  refine ⟨assemble_document (images.map (fun im => (im.2.id, ""))), ?_, hnem⟩
  have him : controller_process_object fn images "images" = some (.imgs images) := rfl
  have hdb : controller_process_object fn images "document_bits" = some (.bits []) := rfl
  have h1 : handle_request (controller_process_object fn images) nr nc sr fsr =
      .ok (fun k =>
        if k = "text" then
          some (.str (assemble_document (images.map (fun im => (im.2.id, "")))))
        else if k = "images" then none
        else if k = "document_bits" then none
        else controller_process_object fn images k) := by
    unfold handle_request
    simp only [him, hpp, hdb]
  unfold controller_run
  rw [h1]
  show (if assemble_document (images.map (fun im => (im.2.id, ""))) = "" then
      Except.error ("Fail in OCR process: Document " ++ fn ++ ", do not contain text!")
    else Except.ok (assemble_document (images.map (fun im => (im.2.id, ""))))) =
    Except.ok (assemble_document (images.map (fun im => (im.2.id, ""))))
  rw [if_neg hnem]

/-- Witness for C8's amended claim at a concrete one-page document. -/
theorem C8_amended_markers_make_text_nonempty_witness :
    ([("p1", { id := 1, image := [] })] : List (String × PageMeta)) ≠ [] ∧
    (∀ im ∈ ([("p1", { id := 1, image := [] })] : List (String × PageMeta)),
      im.2.image = []) ∧
    ∃ t, controller_run "doc" [("p1", { id := 1, image := [] })] 35 20 8 6 = .ok t ∧ t ≠ "" :=
  ⟨by decide, by decide,
   C8_amended_markers_make_text_nonempty "doc" [("p1", { id := 1, image := [] })] 35 20 8 6
     (by decide) (by decide)⟩

/-! Section: Claim C2 — Axis Binner -/

/-- A value in a later (larger lower bound) interval has at least as
large a raw interval index; in particular the interval assignment is
monotone in the value. -/
lemma axis_bin_mono (vals : List ℚ) (N : ℕ) {v1 v2 : ℚ} (h : v1 ≤ v2) :
    axis_bin vals N v1 ≤ axis_bin vals N v2 := by
  unfold axis_bin raw_bin
  refine List.countP_mono_left ?_
  intro i _
  simp only [decide_eq_true_eq]
  exact fun h2 => lt_of_lt_of_le h2 h

/-- The interval of any observed value is one of the used intervals. -/
lemma axis_bin_mem_used_bins {vals : List ℚ} {N : ℕ} {v : ℚ} (hv : v ∈ vals) :
    axis_bin vals N v ∈ used_bins vals N :=
  mem_sorted_dedup.mpr (List.mem_map_of_mem _ hv)

/-- Monotonicity of the enumerated class in the interval index. -/
lemma class_index_mono_of_bin_le {vals : List ℚ} {N : ℕ} {v1 v2 : ℚ}
    (h1 : v1 ∈ vals) (h2 : v2 ∈ vals) (hb : axis_bin vals N v1 ≤ axis_bin vals N v2) :
    class_index vals N v1 ≤ class_index vals N v2 :=
  indexOf_le_indexOf_of_pairwise_lt (sorted_dedup_pairwise_lt _)
    (axis_bin_mem_used_bins h1) (axis_bin_mem_used_bins h2) hb

/-- C2: for every non-empty value collection and bucket count `N ≥ 1`,
the assigned bucket indices are exactly the contiguous integers
`0, ..., len-1` (every index below the number of used intervals is hit,
and no assigned index reaches beyond); the index assignment is monotone
in the interval (larger lower bound, i.e. larger interval index, never
maps to a smaller bucket) and the interval assignment is monotone in the
value; and when all values are equal a single bucket with index 0
results. -/
theorem C2_axis_binner :
    ∀ (vals : List ℚ) (N : ℕ), vals ≠ [] → 1 ≤ N →
      ((∀ v ∈ vals, class_index vals N v < (used_bins vals N).length) ∧
       (∀ i < (used_bins vals N).length, ∃ v ∈ vals, class_index vals N v = i)) ∧
      (∀ v1 ∈ vals, ∀ v2 ∈ vals,
        axis_bin vals N v1 ≤ axis_bin vals N v2 →
        class_index vals N v1 ≤ class_index vals N v2) ∧
      (∀ v1 ∈ vals, ∀ v2 ∈ vals, v1 ≤ v2 → axis_bin vals N v1 ≤ axis_bin vals N v2) ∧
      (∀ c : ℚ, (∀ v ∈ vals, v = c) →
        (used_bins vals N).length = 1 ∧ ∀ v ∈ vals, class_index vals N v = 0) := by
  intro vals N hne hN
  refine ⟨⟨?_, ?_⟩, ?_, ?_, ?_⟩
  · intro v hv
    exact List.indexOf_lt_length.mpr (axis_bin_mem_used_bins hv)
  · intro i hi
    have hmem : (used_bins vals N).get ⟨i, hi⟩ ∈ used_bins vals N := List.get_mem _ _ hi
    have hmem2 : (used_bins vals N).get ⟨i, hi⟩ ∈ vals.map (axis_bin vals N) :=
      (mem_sorted_dedup).mp hmem
    rcases List.mem_map.mp hmem2 with ⟨v, hv, hbin⟩
    refine ⟨v, hv, ?_⟩
    unfold class_index
    rw [hbin]
    exact List.indexOf_getElem (sorted_dedup_nodup _) i hi
  · intro v1 h1 v2 h2 hb
    exact class_index_mono_of_bin_le h1 h2 hb
  · intro v1 _ v2 _ h
    exact axis_bin_mono vals N h
  · intro c hc
    rcases List.exists_cons_of_ne_nil hne with ⟨a, t, rfl⟩
    have hmap : (a :: t).map (axis_bin (a :: t) N) =
        List.replicate (a :: t).length (axis_bin (a :: t) N c) := by
      rw [List.map_congr_left (fun v hv => by rw [hc v hv] : ∀ v ∈ a :: t,
        axis_bin (a :: t) N v = axis_bin (a :: t) N c)]
      exact List.map_const' _ _
    have hdedup : ((a :: t).map (axis_bin (a :: t) N)).dedup =
        [axis_bin (a :: t) N c] := by
      rw [hmap]
      have : ∀ n : ℕ, (List.replicate (n + 1) (axis_bin (a :: t) N c)).dedup =
          [axis_bin (a :: t) N c] := by
        intro n
        induction n with
        | zero => simp
        | succ m ih =>
          rw [List.replicate_succ, List.dedup_cons_of_mem (by simp [List.mem_replicate])]
          exact ih
      exact this t.length
    have hused : used_bins (a :: t) N = [axis_bin (a :: t) N c] := by
      unfold used_bins
      rw [hdedup]
      rfl
    constructor
    · rw [hused]
      rfl
    · intro v hv
      unfold class_index
      rw [hused, hc v hv]
      simp [List.indexOf_cons_self]

/-- Witness for C2 on a concrete two-value collection. -/
theorem C2_axis_binner_witness :
    ([(0 : ℚ), 3] ≠ []) ∧ (1 ≤ 3) ∧
    (((∀ v ∈ [(0 : ℚ), 3], class_index [0, 3] 3 v < (used_bins [0, 3] 3).length) ∧
      (∀ i < (used_bins [(0 : ℚ), 3] 3).length, ∃ v ∈ [(0 : ℚ), 3],
        class_index [0, 3] 3 v = i)) ∧
     (∀ v1 ∈ [(0 : ℚ), 3], ∀ v2 ∈ [(0 : ℚ), 3],
       axis_bin [0, 3] 3 v1 ≤ axis_bin [0, 3] 3 v2 →
       class_index [0, 3] 3 v1 ≤ class_index [0, 3] 3 v2) ∧
     (∀ v1 ∈ [(0 : ℚ), 3], ∀ v2 ∈ [(0 : ℚ), 3], v1 ≤ v2 →
       axis_bin [0, 3] 3 v1 ≤ axis_bin [0, 3] 3 v2) ∧
     (∀ c : ℚ, (∀ v ∈ [(0 : ℚ), 3], v = c) →
       (used_bins [(0 : ℚ), 3] 3).length = 1 ∧
         ∀ v ∈ [(0 : ℚ), 3], class_index [0, 3] 3 v = 0)) :=
  ⟨by decide, by decide, C2_axis_binner [0, 3] 3 (by decide) (by decide)⟩

/-! Section: Claim C3 — row ordering -/

/-- The row key of every positioned detection is one of the page's row
keys. -/
lemma row_mem_row_keys {dataset : List Positioned} {p : Positioned} (hp : p ∈ dataset) :
    p.row ∈ row_keys dataset :=
  mem_sorted_dedup.mpr (List.mem_map_of_mem _ hp)

/-- A positioned detection records its detection together with the axis
classes of its (flipped) `y` and its `x`. -/
lemma mem_map_text_positions {dataset : List Detection} {num_rows num_columns : ℕ}
    {p : Positioned} (hp : p ∈ map_text_positions dataset num_rows num_columns) :
    p.det ∈ dataset ∧
    p.row = class_index (dataset.map Detection.y) num_rows p.det.y ∧
    p.column = class_index (dataset.map Detection.x) num_columns p.det.x := by
  rcases List.mem_map.mp hp with ⟨d, hd, rfl⟩
  exact ⟨hd, rfl, rfl⟩

/-- C3: the pipeline (i) flips every `y` to `maxY - y`, (ii) emits the
reconstructed lines in descending row-key order, and (iii) consequently a
detection with a strictly larger transformed `y` (the `y` stored in its
positioned record) is placed in a line at or before the line of a
detection with a smaller transformed `y`, measured by the position of
their row keys in the emitted (descending) row-key order. -/
theorem C3_row_ordering :
    (∀ ds : List Detection, create_pandas_dataset ds =
      ds.map (fun d => { d with y := list_max (ds.map Detection.y) - d.y })) ∧
    (∀ (dataset : List Positioned) (space_redutor font_size_regulator : ℕ),
      format_output dataset space_redutor font_size_regulator =
        join_with "\n" (((row_keys dataset).reverse).map
          (fun r => format_line (row_group dataset r) space_redutor font_size_regulator))) ∧
    (∀ (ds : List Detection) (num_rows num_columns : ℕ) (p1 p2 : Positioned),
      p1 ∈ map_text_positions (create_pandas_dataset ds) num_rows num_columns →
      p2 ∈ map_text_positions (create_pandas_dataset ds) num_rows num_columns →
      p2.det.y < p1.det.y →
      ((row_keys (map_text_positions (create_pandas_dataset ds)
          num_rows num_columns)).reverse).indexOf p1.row ≤
        ((row_keys (map_text_positions (create_pandas_dataset ds)
          num_rows num_columns)).reverse).indexOf p2.row) := by
  refine ⟨?_, ?_, ?_⟩
  · intro ds
    unfold create_pandas_dataset
    by_cases h : ds = []
    · rw [if_pos h, h]
      rfl
    · rw [if_neg h]
  · intro dataset sr fsr
    unfold format_output
    rw [List.map_reverse]
  · intro ds nr nc p1 p2 hp1 hp2 hy
    rcases mem_map_text_positions hp1 with ⟨hd1, hr1, _⟩
    rcases mem_map_text_positions hp2 with ⟨hd2, hr2, _⟩
    have hy1 : p1.det.y ∈ (create_pandas_dataset ds).map Detection.y :=
      List.mem_map_of_mem _ hd1
    have hy2 : p2.det.y ∈ (create_pandas_dataset ds).map Detection.y :=
      List.mem_map_of_mem _ hd2
    have hrow : p2.row ≤ p1.row := by
      rw [hr1, hr2]
      exact class_index_mono_of_bin_le hy2 hy1
        (axis_bin_mono _ nr (le_of_lt hy))
    have hrev : ((row_keys (map_text_positions (create_pandas_dataset ds)
        nr nc)).reverse).Pairwise (· > ·) :=
      List.pairwise_reverse.mpr (sorted_dedup_pairwise_lt _)
    exact indexOf_le_indexOf_of_pairwise_gt hrev
      (List.mem_reverse.mpr (row_mem_row_keys hp1))
      (List.mem_reverse.mpr (row_mem_row_keys hp2)) hrow

/-- The concrete three-detection page used to instantiate C3 and to
refute C6: two detections share the top row (and, with 20 column bins
over the range 10..1000, the same column bucket), one detection sits
alone on the bottom row far to the right. -/
def c6_page : List Detection :=
  [ { text := "B", x := 11, y := 0, text_length := 1 },
    { text := "A", x := 10, y := 0, text_length := 1 },
    { text := "C", x := 1000, y := 100, text_length := 1 } ]

/-- The positioned record of detection `A` in c6_page (flipped
`y = 100 - 0`, row bucket 1 of the used buckets, column bucket 0). -/
def c6_pos_a : Positioned :=
  { det := { text := "A", x := 10, y := 100, text_length := 1 }, row := 1, column := 0 }

/-- The positioned record of detection `C` in c6_page (flipped
`y = 100 - 100`, row bucket 0, column bucket 1 of the used buckets). -/
def c6_pos_c : Positioned :=
  { det := { text := "C", x := 1000, y := 0, text_length := 1 }, row := 0, column := 1 }

set_option maxRecDepth 100000 in
/-- Witness for C3 on the concrete page: `A`'s transformed `y` (100)
exceeds `C`'s (0), and `A`'s line comes first. -/
theorem C3_row_ordering_witness :
    c6_pos_a ∈ map_text_positions (create_pandas_dataset c6_page) 35 20 ∧
    c6_pos_c ∈ map_text_positions (create_pandas_dataset c6_page) 35 20 ∧
    c6_pos_c.det.y < c6_pos_a.det.y ∧
    ((row_keys (map_text_positions (create_pandas_dataset c6_page) 35 20)).reverse).indexOf
        c6_pos_a.row ≤
      ((row_keys (map_text_positions (create_pandas_dataset c6_page) 35 20)).reverse).indexOf
        c6_pos_c.row :=
  ⟨by with_unfolding_all decide, by with_unfolding_all decide, by with_unfolding_all decide,
   C3_row_ordering.2.2 c6_page 35 20 c6_pos_a c6_pos_c
     (by with_unfolding_all decide) (by with_unfolding_all decide)
     (by with_unfolding_all decide)⟩

/-! Section: Claim C6 — column ordering within a line -/

set_option maxRecDepth 400000 in
/-- C6 counterexample: on the concrete page c6_page (with the default 35
row / 20 column bins), detections `B`(x=11) and `A`(x=10) share row 1 and
column bucket 0, and the stable sort keeps their dataset order, so the
reconstructed line emits `B` before `A` — `"B A"` — even though
`A.x < B.x`: the fragments of a line are NOT always in ascending order of
their original `x`. -/
theorem C6_counterexample :
    ((row_group (map_text_positions (create_pandas_dataset c6_page) 35 20) 1).map
        (fun p => p.det.x) = [11, 10]) ∧
    format_line (row_group (map_text_positions (create_pandas_dataset c6_page) 35 20) 1)
        8 6 = "B A" ∧
    ¬ (∀ r ∈ row_keys (map_text_positions (create_pandas_dataset c6_page) 35 20),
        List.Sorted (· ≤ ·)
          ((row_group (map_text_positions (create_pandas_dataset c6_page) 35 20) r).map
            (fun p => p.det.x))) := by
  refine ⟨?_, ?_, ?_⟩
  · with_unfolding_all decide
  · with_unfolding_all decide
  · with_unfolding_all decide

/-- C6 amended: within one reconstructed line the fragments appear in
ascending order of their column bucket (the sort key actually used), and
the column bucket is monotone in the original `x`; ascending `x` order is
therefore guaranteed between detections in distinct column buckets, while
detections sharing row and column bucket keep their dataset order, which
need not follow `x`. -/
theorem C6_amended_column_ordering :
    (∀ (dataset : List Positioned) (r : ℕ),
      List.Sorted (· ≤ ·) ((row_group dataset r).map Positioned.column)) ∧
    (∀ (ds : List Detection) (num_rows num_columns : ℕ) (p1 p2 : Positioned),
      p1 ∈ map_text_positions (create_pandas_dataset ds) num_rows num_columns →
      p2 ∈ map_text_positions (create_pandas_dataset ds) num_rows num_columns →
      p1.det.x ≤ p2.det.x → p1.column ≤ p2.column) := by
  constructor
  · intro dataset r
    haveI ht : IsTotal Positioned (fun a b => a.column ≤ b.column) :=
      ⟨fun a b => le_total _ _⟩
    haveI htr : IsTrans Positioned (fun a b => a.column ≤ b.column) :=
      ⟨fun _ _ _ h1 h2 => le_trans h1 h2⟩
    have hs : List.Sorted (fun a b : Positioned => a.column ≤ b.column) (row_group dataset r) :=
      List.sorted_insertionSort _ _
    exact List.pairwise_map.mpr hs
  · intro ds nr nc p1 p2 hp1 hp2 hx
    rcases mem_map_text_positions hp1 with ⟨hd1, _, hc1⟩
    rcases mem_map_text_positions hp2 with ⟨hd2, _, hc2⟩
    have hx1 : p1.det.x ∈ (create_pandas_dataset ds).map Detection.x :=
      List.mem_map_of_mem _ hd1
    have hx2 : p2.det.x ∈ (create_pandas_dataset ds).map Detection.x :=
      List.mem_map_of_mem _ hd2
    rw [hc1, hc2]
    exact class_index_mono_of_bin_le hx1 hx2 (axis_bin_mono _ nc hx)

set_option maxRecDepth 400000 in
/-- Witness for C6's amended claim: `A` (column 0) precedes `C`
(column 1) because `A.x = 10 ≤ 1000 = C.x`. -/
theorem C6_amended_column_ordering_witness :
    c6_pos_a ∈ map_text_positions (create_pandas_dataset c6_page) 35 20 ∧
    c6_pos_c ∈ map_text_positions (create_pandas_dataset c6_page) 35 20 ∧
    c6_pos_a.det.x ≤ c6_pos_c.det.x ∧
    c6_pos_a.column ≤ c6_pos_c.column :=
  ⟨by with_unfolding_all decide, by with_unfolding_all decide, by with_unfolding_all decide,
   C6_amended_column_ordering.2 c6_page 35 20 c6_pos_a c6_pos_c
     (by with_unfolding_all decide) (by with_unfolding_all decide)
     (by with_unfolding_all decide)⟩

/-! Section: Claim C4 — Document Assembler page order -/

/-- The function sort_results sorts by page id. -/
lemma sort_results_sorted (l : List (ℕ × String)) :
    (sort_results l).Pairwise (fun a b => a.1 ≤ b.1) := by
  haveI : IsTotal (ℕ × String) (fun a b => a.1 ≤ b.1) := ⟨fun a b => le_total _ _⟩
  haveI : IsTrans (ℕ × String) (fun a b => a.1 ≤ b.1) := ⟨fun _ _ _ h1 h2 => le_trans h1 h2⟩
  exact List.sorted_insertionSort _ _

/-- With pairwise-distinct page ids, a list sorted by page id is sorted
by the antisymmetric relation id-strictly-less-or-equal. -/
lemma sorted_strict_of_nodup {l : List (ℕ × String)}
    (hs : l.Pairwise (fun a b => a.1 ≤ b.1)) (hn : (l.map Prod.fst).Nodup) :
    l.Pairwise (fun a b : ℕ × String => a.1 < b.1 ∨ a = b) := by
  have hne : l.Pairwise (fun a b : ℕ × String => a.1 ≠ b.1) := List.pairwise_map.mp hn
  exact (hs.and hne).imp (fun h => Or.inl (lt_of_le_of_ne h.1 h.2))

/-- Two permuted result lists with distinct page ids sort identically:
completion order cannot leak into the sorted order. -/
lemma sort_results_eq_of_perm {l1 l2 : List (ℕ × String)} (hp : List.Perm l1 l2)
    (hn : (l1.map Prod.fst).Nodup) : sort_results l1 = sort_results l2 := by
  haveI : IsAntisymm (ℕ × String) (fun a b : ℕ × String => a.1 < b.1 ∨ a = b) := by
    refine ⟨fun a b h1 h2 => ?_⟩
    rcases h1 with h1 | h1
    · rcases h2 with h2 | h2
      · exact absurd h1 (not_lt.mpr (le_of_lt h2))
      · exact h2.symm
    · exact h1
  have hn2 : (l2.map Prod.fst).Nodup := ((hp.map Prod.fst).nodup_iff).mp hn
  have hns1 : ((sort_results l1).map Prod.fst).Nodup :=
    (((List.perm_insertionSort _ l1).map Prod.fst).nodup_iff).mpr hn
  have hns2 : ((sort_results l2).map Prod.fst).Nodup :=
    (((List.perm_insertionSort _ l2).map Prod.fst).nodup_iff).mpr hn2
  exact List.eq_of_perm_of_sorted
    ((List.perm_insertionSort _ l1).trans (hp.trans (List.perm_insertionSort _ l2).symm))
    (sorted_strict_of_nodup (sort_results_sorted l1) hns1)
    (sorted_strict_of_nodup (sort_results_sorted l2) hns2)

/-- C4: with pairwise-distinct page ids, the assembled document is
invariant under any permutation (completion order) of the collected page
results; it equals the newline-join of each sorted page text followed by
its literal `End of page {id}` marker, all lower-cased; and the sorted
results are in strictly ascending page-id order. -/
theorem C4_document_assembler :
    ∀ (results1 results2 : List (ℕ × String)),
      List.Perm results1 results2 → (results1.map Prod.fst).Nodup →
      assemble_document results1 = assemble_document results2 ∧
      assemble_document results1 =
        to_lower (join_with "\n" ((sort_results results1).flatMap
          (fun data => [data.2, "End of page " ++ toString data.1]))) ∧
      List.Sorted (· < ·) ((sort_results results1).map Prod.fst) := by
  intro results1 results2 hp hn
  refine ⟨?_, rfl, ?_⟩
  · unfold assemble_document assemble_content
    rw [sort_results_eq_of_perm hp hn]
  · have hs := sort_results_sorted results1
    have hnod : ((sort_results results1).map Prod.fst).Nodup :=
      (((List.perm_insertionSort _ results1).map Prod.fst).nodup_iff).mpr hn
    have hne : (sort_results results1).Pairwise (fun a b : ℕ × String => a.1 ≠ b.1) :=
      List.pairwise_map.mp hnod
    exact List.pairwise_map.mpr ((hs.and hne).imp (fun h => lt_of_le_of_ne h.1 h.2))

/-- Witness for C4 on two permuted two-page result lists. -/
theorem C4_document_assembler_witness :
    List.Perm [((2 : ℕ), "b"), (1, "a")] [((1 : ℕ), "a"), (2, "b")] ∧
    ([((2 : ℕ), "b"), (1, "a")].map Prod.fst).Nodup ∧
    (assemble_document [((2 : ℕ), "b"), (1, "a")] =
        assemble_document [((1 : ℕ), "a"), (2, "b")] ∧
      assemble_document [((2 : ℕ), "b"), (1, "a")] =
        to_lower (join_with "\n" ((sort_results [((2 : ℕ), "b"), (1, "a")]).flatMap
          (fun data => [data.2, "End of page " ++ toString data.1]))) ∧
      List.Sorted (· < ·) ((sort_results [((2 : ℕ), "b"), (1, "a")]).map Prod.fst)) :=
  ⟨by decide, by decide,
   C4_document_assembler [(2, "b"), (1, "a")] [(1, "a"), (2, "b")] (by decide) (by decide)⟩

end PdfToText
